import Mathlib

/-!
Shallow embedding of the job-orchestration core of `memory-splat-visualiser`:
the Sharp poll loop (`src/sharpService.ts`) and the photo/album entity store
(`src/photoService.ts`, with its orchestration caller in `src/main.ts`).

Conventions of the embedding:
* machine time (`Date.now()`) is a `Nat` of milliseconds, supplied by the
  environment; inside the poll loop time advances by exactly the slept
  backoff (network calls are modelled as instantaneous, which is the only
  part of the timing the verified claims depend on);
* `fetch` responses are environment functions indexed by the attempt
  number; `none` models a rejected fetch (network error), `ok := false`
  models a non-2xx response;
* thrown JS exceptions are reified as the `TryResult.thrown` constructor;
  the `try { ... } catch` of the loop body is the explicit `match` in
  `pollLoop` that turns `thrown` into "fall through to the backoff sleep";
* the in-memory module-level arrays (`photos`, `albums`) and IndexedDB are
  explicit state records threaded through the functions.
-/

set_option autoImplicit false

namespace MemorySplat

/-! ### sharpService.ts : data -/

/-- The `status` field of `/api/sharp/status` responses. -/
inductive JobStatus where
  | pending
  | processing
  | completed
  | failed
  | unknown
deriving DecidableEq, Repr

/-- A response of the status endpoint as seen by `waitForResult`:
`ok` is `Response.ok`, `status`/`error` the parsed JSON fields. -/
structure StatusResponse where
  ok : Bool
  status : JobStatus
  error : Option String
deriving DecidableEq, Repr

/-- A response of the result endpoint: `ok` is `Response.ok`, the other
fields the parsed `ply_url` / `filename` / `size_bytes`. -/
structure ResultJson where
  ok : Bool
  ply_url : String
  filename : String
  size_bytes : Nat
deriving DecidableEq, Repr

/-- `SharpResult` as returned by `waitForResult` on success. -/
structure SharpResult where
  plyUrl : String
  filename : String
  sizeBytes : Nat
deriving DecidableEq, Repr

/-- One entry of the `activeGenerations` map. -/
structure Gen where
  requestId : String
  imageUrl : String
  startTime : Nat
  photoId : Option String
deriving DecidableEq, Repr

/-- The `activeGenerations` map, as its list of entries (keys are unique). -/
abbrev Tracker := List Gen

/-- `activeGenerations.delete(requestId)`. -/
def trackerDelete (t : Tracker) (requestId : String) : Tracker :=
  t.filter (fun g => !(g.requestId == requestId))

/-- `cleanupStale()`: removes entries with `now - startTime > 5 * 60 * 1000`. -/
def cleanupStale (now : Nat) (t : Tracker) : Tracker :=
  t.filter (fun g => !(decide (now - g.startTime > 5 * 60 * 1000)))

/-- Environment of one `waitForResult` call.  Responses are indexed by the
attempt number (1-based, the loop's `attempt` counter).  `progressThrows n`
says whether the caller-supplied `onProgress` callback throws when invoked
on attempt `n`. -/
structure PollEnv where
  statusAt : Nat → Option StatusResponse
  resultAt : Nat → Option ResultJson
  progressThrows : Nat → Bool

/-- Result of evaluating the body of the `try { ... }` of one loop
iteration: an early `return`, an exception escaping the body, or falling
through to the backoff. -/
inductive TryResult where
  | ret (r : SharpResult)
  | thrown (msg : String)
  | normal
deriving DecidableEq, Repr

/-- Output of one iteration's `try` body. -/
structure IterOut where
  res : TryResult
  tracker : Tracker
  resultFetches : Nat
  progressLog : List String
deriving Repr

/-- The body of the `try { ... }` of one iteration of `waitForResult`
(`src/sharpService.ts` lines 119-157), for attempt number `attempt` with
`elapsedSec = Math.round((Date.now() - start) / 1000)`. -/
def tryBody (env : PollEnv) (hasCallback : Bool) (attempt : Nat)
    (elapsedSec : Nat) (requestId : String) (tracker : Tracker) : IterOut :=
  match env.statusAt attempt with
  | none =>
      -- `await fetch(...)` rejected: the exception escapes the try body
      { res := .thrown "status_fetch_rejected", tracker := tracker
        resultFetches := 0, progressLog := [] }
  | some s =>
      if s.ok then
        let invoked := hasCallback &&
          (s.status == .pending || s.status == .processing)
        let log := if invoked then [s!"Generating splat... ({elapsedSec}s)"] else []
        if invoked && env.progressThrows attempt then
          -- the onProgress callback threw inside the try body
          { res := .thrown "progress_callback_error", tracker := tracker
            resultFetches := 0, progressLog := log }
        else if s.status == .completed then
          match env.resultAt attempt with
          | none =>
              { res := .thrown "result_fetch_rejected", tracker := tracker
                resultFetches := 1, progressLog := log }
          | some r =>
              if !r.ok then
                { res := .thrown "Failed to get result", tracker := tracker
                  resultFetches := 1, progressLog := log }
              else
                { res := .ret ⟨r.ply_url, r.filename, r.size_bytes⟩
                  tracker := trackerDelete tracker requestId
                  resultFetches := 1, progressLog := log }
        else if s.status == .failed then
          { res := .thrown ((s.error).getD "Generation failed")
            tracker := trackerDelete tracker requestId
            resultFetches := 0, progressLog := log }
        else
          { res := .normal, tracker := tracker, resultFetches := 0, progressLog := log }
      else
        -- `statusRes.ok` false: nothing happens, fall through to the backoff
        { res := .normal, tracker := tracker, resultFetches := 0, progressLog := [] }

/-- What a `waitForResult` call produces: a returned `SharpResult` or a
thrown error (for this function only `'sharp_timeout'` ever escapes). -/
inductive PollOutcome where
  | success (r : SharpResult)
  | error (msg : String)
deriving DecidableEq, Repr

/-- Full observable behaviour of a `waitForResult` call. -/
structure PollResult where
  outcome : PollOutcome
  tracker : Tracker
  resultFetches : Nat
  sleeps : List Nat
  progressLog : List String
deriving Repr

/-- The `while (Date.now() - start < timeoutMs)` loop of `waitForResult`.
`elapsed` is `Date.now() - start`; it advances by the slept backoff.
`fuel` only bounds the recursion: because every iteration sleeps at least
1200 ms, `timeoutMs + 1` iterations are never reached when the loop is
started with that much fuel, and the fuel-exhaustion branch agrees with
the loop's own exit (throw `'sharp_timeout'`). -/
def pollLoop (env : PollEnv) (hasCallback : Bool) (requestId : String)
    (timeoutMs : Nat) : Nat → Nat → Nat → Tracker → PollResult
  | 0, _, _, tracker =>
      { outcome := .error "sharp_timeout", tracker := tracker
        resultFetches := 0, sleeps := [], progressLog := [] }
  | fuel + 1, elapsed, attempt, tracker =>
      if elapsed < timeoutMs then
        let attempt' := attempt + 1
        let elapsedSec := (elapsed + 500) / 1000
        let it := tryBody env hasCallback attempt' elapsedSec requestId tracker
        match it.res with
        | .ret r =>
            { outcome := .success r, tracker := it.tracker
              resultFetches := it.resultFetches, sleeps := []
              progressLog := it.progressLog }
        | _ =>
            -- `.thrown` is absorbed by the `catch` (console.warn only);
            -- `.normal` falls through; both reach the backoff sleep
            let backoff := min 5000 (1000 + attempt' * 200)
            let rest := pollLoop env hasCallback requestId timeoutMs fuel
              (elapsed + backoff) attempt' it.tracker
            { outcome := rest.outcome, tracker := rest.tracker
              resultFetches := it.resultFetches + rest.resultFetches
              sleeps := backoff :: rest.sleeps
              progressLog := it.progressLog ++ rest.progressLog }
      else
        { outcome := .error "sharp_timeout", tracker := tracker
          resultFetches := 0, sleeps := [], progressLog := [] }

/-- Default timeout of `waitForResult`: `3 * 60 * 1000` ms. -/
def defaultTimeoutMs : Nat := 3 * 60 * 1000

/-- `sharpService.waitForResult(requestId, timeoutMs, onProgress)` run
against environment `env` with the tracker in state `tracker`. -/
def waitForResult (env : PollEnv) (hasCallback : Bool) (requestId : String)
    (timeoutMs : Nat) (tracker : Tracker) : PollResult :=
  pollLoop env hasCallback requestId timeoutMs (timeoutMs + 1) 0 0 tracker

/-! ### photoService.ts : data -/

/-- The `splatStatus` union type of `Photo`. -/
inductive SplatStatus where
  | pending
  | processing
  | ready
  | failed
deriving DecidableEq, Repr

/-- The `Photo` interface.  The `Blob` is modelled by its content bytes. -/
structure Photo where
  id : String
  name : String
  blobContent : String
  url : String
  timestamp : Nat
  albumId : String
  splatUrl : Option String
  splatStatus : Option SplatStatus
deriving DecidableEq, Repr

/-- The `Album` interface. -/
structure Album where
  id : String
  name : String
  photoCount : Nat
  coverUrl : Option String
  createdAt : Nat
deriving DecidableEq, Repr

/-- What `savePhotoToDB` writes to the `photos` object store: every `Photo`
field except the (session-local) object `url`. -/
structure PhotoRecord where
  id : String
  name : String
  blobContent : String
  timestamp : Nat
  albumId : String
  splatUrl : Option String
  splatStatus : Option SplatStatus
deriving DecidableEq, Repr

/-- The IndexedDB database: the `photos` and `albums` object stores, both
keyed by `id` (`put` = upsert by key). -/
structure DB where
  photosDB : List PhotoRecord
  albumsDB : List Album
deriving DecidableEq, Repr

/-- The module-level in-memory state of `photoService.ts`: the `photos`
and `albums` arrays and `currentAlbumId`. -/
structure Store where
  photos : List Photo
  albums : List Album
  currentAlbumId : Option String
deriving DecidableEq, Repr

/-- JS truthiness of an optional string (`undefined` and `''` are falsy). -/
def jsTruthy : Option String → Bool
  | none => false
  | some s => !(s == "")

/-- The record `savePhotoToDB` builds from a `Photo`. -/
def recordOf (p : Photo) : PhotoRecord :=
  ⟨p.id, p.name, p.blobContent, p.timestamp, p.albumId, p.splatUrl, p.splatStatus⟩

/-- `store.put` on the `photos` object store (keyPath `id`): replace the
record with the same key, or insert. -/
def putPhotoRecord (db : DB) (r : PhotoRecord) : DB :=
  if db.photosDB.any (fun q => q.id == r.id) then
    { db with photosDB := db.photosDB.map (fun q => if q.id == r.id then r else q) }
  else
    { db with photosDB := db.photosDB ++ [r] }

/-- `store.put` on the `albums` object store (keyPath `id`). -/
def putAlbum (db : DB) (a : Album) : DB :=
  if db.albumsDB.any (fun b => b.id == a.id) then
    { db with albumsDB := db.albumsDB.map (fun b => if b.id == a.id then a else b) }
  else
    { db with albumsDB := db.albumsDB ++ [a] }

/-- In-place mutation of the object `photos.find(p => p.id === pid)`
returns: replacing the first matching array entry. -/
def replaceFirstPhoto : List Photo → String → Photo → List Photo
  | [], _, _ => []
  | p :: rest, pid, p' =>
      if p.id == pid then p' :: rest else p :: replaceFirstPhoto rest pid p'

/-- In-place mutation of the object `albums.find(a => a.id === aid)`
returns: replacing the first matching array entry. -/
def replaceFirstAlbum : List Album → String → Album → List Album
  | [], _, _ => []
  | a :: rest, aid, a' =>
      if a.id == aid then a' :: rest else a :: replaceFirstAlbum rest aid a'

/-- Observable effect of one `updatePhotoSplatStatus` call.  `oldStatus`
is `some old` exactly when a photo matched (and then `old` is its
`splatStatus` before the call); `notified` says whether the
photos-changed notification point was reached (the callback fires there
whenever one is registered). -/
structure UpdateResult where
  store : Store
  db : DB
  oldStatus : Option (Option SplatStatus)
  notified : Bool
deriving Repr

/-- `updatePhotoSplatStatus(photoId, status, splatUrl?)`
(`src/photoService.ts` lines 274-292).  Note the JS truthiness guard
`if (splatUrl)`: an absent or empty `splatUrl` leaves the field alone. -/
def updatePhotoSplatStatus (st : Store) (db : DB) (photoId : String)
    (status : Option SplatStatus) (splatUrl : Option String) : UpdateResult :=
  match st.photos.find? (fun p => p.id == photoId) with
  | none => ⟨st, db, none, false⟩
  | some photo =>
      let photo' : Photo :=
        { photo with
          splatStatus := status
          splatUrl := if jsTruthy splatUrl then splatUrl else photo.splatUrl }
      ⟨{ st with photos := replaceFirstPhoto st.photos photoId photo' },
       putPhotoRecord db (recordOf photo'),
       some photo.splatStatus,
       true⟩

/-- `getPhotos()`: the current album's photos (the source returns a fresh
array `[...photos]` holding the same entries). -/
def getPhotos (st : Store) : List Photo :=
  st.photos

/-- A `File` from a `FileList`: name, MIME content type, content bytes. -/
structure StoredFile where
  name : String
  type : String
  content : String
deriving DecidableEq, Repr

/-- Environment of one `addPhotosFromFiles` call, indexed by how many
files have been accepted so far: `nowAt i` is `Date.now()`, `randAt i`
the suffix `Math.random().toString(36).slice(2, 9)`, `urlAt i` the URL
`URL.createObjectURL` hands out. -/
structure AddEnv where
  nowAt : Nat → Nat
  randAt : Nat → String
  urlAt : Nat → String

/-- The id `addPhotosFromFiles` generates for the `i`-th accepted file:
`` `photo-${Date.now()}-${Math.random().toString(36).slice(2, 9)}` ``. -/
def genPhotoId (env : AddEnv) (i : Nat) : String :=
  "photo-" ++ toString (env.nowAt i) ++ "-" ++ env.randAt i

/-- Character-list version of a leading-substring test (structural, so
concrete instances evaluate). -/
def charsStartWith : List Char → List Char → Bool
  | _, [] => true
  | [], _ :: _ => false
  | c :: cs, d :: ds => c == d && charsStartWith cs ds

/-- JS `s.startsWith(pre)`. -/
def jsStartsWith (s pre : String) : Bool :=
  charsStartWith s.data pre.data

/-- The `for (const file of Array.from(files))` loop of
`addPhotosFromFiles`: skips non-image files, builds and persists a
pending photo for each accepted one.  Returns the accepted photos (each
is also pushed onto `photos`) and the updated database. -/
def addPhotosGo (env : AddEnv) (targetAlbumId : String) :
    List StoredFile → Nat → DB → List Photo × DB
  | [], _, db => ([], db)
  | f :: fs, i, db =>
      if jsStartsWith f.type "image/" then
        let photo : Photo :=
          { id := genPhotoId env i
            name := f.name
            blobContent := f.content
            url := env.urlAt i
            timestamp := env.nowAt i
            albumId := targetAlbumId
            splatUrl := none
            splatStatus := some .pending }
        let next := addPhotosGo env targetAlbumId fs (i + 1)
          (putPhotoRecord db (recordOf photo))
        (photo :: next.1, next.2)
      else
        addPhotosGo env targetAlbumId fs i db

/-- Result of an `addPhotosFromFiles` call. -/
structure AddResult where
  store : Store
  db : DB
  returned : List Photo
deriving Repr

/-- JS `a || b || dflt` on optional strings (`''` is falsy). -/
def jsOrElse (a b : Option String) (dflt : String) : String :=
  if jsTruthy a then a.getD "" else if jsTruthy b then b.getD "" else dflt

/-- `addPhotosFromFiles(files, albumId?)`
(`src/photoService.ts` lines 201-241). -/
def addPhotosFromFiles (env : AddEnv) (files : List StoredFile)
    (albumId : Option String) (st : Store) (db : DB) : AddResult :=
  let targetAlbumId := jsOrElse albumId st.currentAlbumId "default"
  let added := addPhotosGo env targetAlbumId files 0 db
  let newPhotos := added.1
  let photos1 := st.photos ++ newPhotos
  match st.albums.find? (fun a => a.id == targetAlbumId) with
  | none => ⟨{ st with photos := photos1 }, added.2, newPhotos⟩
  | some album =>
      let album' : Album :=
        { album with
          photoCount := album.photoCount + newPhotos.length
          coverUrl :=
            match newPhotos, jsTruthy album.coverUrl with
            | p :: _, false => some p.url
            | _, _ => album.coverUrl }
      ⟨{ st with
          photos := photos1
          albums := replaceFirstAlbum st.albums targetAlbumId album' },
       putAlbum added.2 album',
       newPhotos⟩

/-- The photo `loadPhotosFromDB` rebuilds from a stored record, with the
freshly created object `url`. -/
def toPhoto (url : String) (r : PhotoRecord) : Photo :=
  ⟨r.id, r.name, r.blobContent, url, r.timestamp, r.albumId, r.splatUrl, r.splatStatus⟩

/-- The `request.result.map(data => ({...data, url: createObjectURL}))` of
`loadPhotosFromDB`, with the object URLs supplied per element. -/
def loadPhotosGo (urlAt : Nat → String) : Nat → List PhotoRecord → List Photo
  | _, [] => []
  | i, r :: rs => toPhoto (urlAt i) r :: loadPhotosGo urlAt (i + 1) rs

/-- `loadPhotosFromDB(albumId?)`: all records, or — when `albumId` is
truthy — the ones the `albumId` index selects. -/
def loadPhotosFromDB (urlAt : Nat → String) (db : DB) (albumId : Option String) :
    List Photo :=
  let recs :=
    if jsTruthy albumId then
      db.photosDB.filter (fun r => r.albumId == albumId.getD "")
    else
      db.photosDB
  loadPhotosGo urlAt 0 recs

/-- Environment of one `initPhotoService` call: `Date.now()` and the
object-URL stream for the loaded photos. -/
structure InitEnv where
  now : Nat
  urlAt : Nat → String

/-- The default album `initPhotoService` creates on an empty store. -/
def defaultAlbum (now : Nat) : Album :=
  ⟨"default", "All Memories", 0, none, now⟩

/-- `initPhotoService()` (`src/photoService.ts` lines 134-158). -/
def initPhotoService (env : InitEnv) (db : DB) : Store × DB :=
  let albums0 := db.albumsDB
  let step :=
    if albums0.length == 0 then
      ([defaultAlbum env.now], putAlbum db (defaultAlbum env.now))
    else
      (albums0, db)
  let currentAlbumId : Option String :=
    match step.1 with
    | [] => none
    | a :: _ => some a.id
  let photos := loadPhotosFromDB env.urlAt step.2 currentAlbumId
  (⟨photos, step.1, currentAlbumId⟩, step.2)

/-! ### main.ts : generateSplatsForPhotos -/

/-- One splat-status change actually applied to a stored photo:
the photo's status just before the write, and the written status. -/
structure Transition where
  photoId : String
  fromStatus : Option SplatStatus
  toStatus : Option SplatStatus
deriving DecidableEq, Repr

/-- The transition recorded by one `updatePhotoSplatStatus` call: one
entry when a photo matched, none otherwise. -/
def transitionsOf (photoId : String) (u : UpdateResult)
    (toSt : Option SplatStatus) : List Transition :=
  match u.oldStatus with
  | some old => [⟨photoId, old, toSt⟩]
  | none => []

/-- `generateSplatsForPhotos(photos)` (`src/main.ts` lines 231-265),
with the remote generation abstracted by `outcome : photoId → some plyUrl`
(success) `| none` (any thrown error).  The loop guard reads
`photo.splatStatus` on the object passed in — modelled by the passed
photo's own field, its state at call time.  This is exact for every
state the repository reaches: the one call site passes the photos
`addPhotosFromFiles` just appended, and a run's writes always go to the
array's *first* match of the processed id, which sits no later than the
processed photo itself, so no passed photo is mutated before its own
guard read.  The status writes go through `updatePhotoSplatStatus`,
i.e. to the store's first id-match — with a duplicated id that is *not*
the passed photo.  The third component collects every splat-status
transition applied. -/
def generateSplatsForPhotos (outcome : String → Option String) :
    List Photo → Store → DB → Store × DB × List Transition
  | [], st, db => (st, db, [])
  | p :: rest, st, db =>
      if p.splatStatus == some .pending then
        let u1 := updatePhotoSplatStatus st db p.id (some .processing) none
        let ts1 := transitionsOf p.id u1 (some .processing)
        match outcome p.id with
        | some plyUrl =>
            let u2 := updatePhotoSplatStatus u1.store u1.db p.id (some .ready) (some plyUrl)
            let next := generateSplatsForPhotos outcome rest u2.store u2.db
            (next.1, next.2.1, ts1 ++ transitionsOf p.id u2 (some .ready) ++ next.2.2)
        | none =>
            let u2 := updatePhotoSplatStatus u1.store u1.db p.id (some .failed) none
            let next := generateSplatsForPhotos outcome rest u2.store u2.db
            (next.1, next.2.1, ts1 ++ transitionsOf p.id u2 (some .failed) ++ next.2.2)
      else
        generateSplatsForPhotos outcome rest st db

/-- A splat-status transition the state machine of the spec allows:
`pending → processing` or `processing → {ready | failed}`. -/
def forwardTransition (t : Transition) : Prop :=
  (t.fromStatus = some .pending ∧ t.toStatus = some .processing) ∨
  (t.fromStatus = some .processing ∧
    (t.toStatus = some .ready ∨ t.toStatus = some .failed))

/-! ### Concrete instances used to instantiate the theorems -/

/-- A registered generation for request `r1` submitted at time 0. -/
def genR1 : Gen :=
  ⟨"r1", "img://cat", 0, none⟩

/-- Backend that reports `failed` with message `"boom"` on every poll. -/
def envAlwaysFailed : PollEnv :=
  ⟨fun _ => some ⟨true, .failed, some "boom"⟩, fun _ => none, fun _ => false⟩

/-- Backend that reports `completed` on every poll but whose result
endpoint always answers non-2xx. -/
def envCompletedBadResult : PollEnv :=
  ⟨fun _ => some ⟨true, .completed, none⟩, fun _ => some ⟨false, "", "", 0⟩,
   fun _ => false⟩

/-- Backend that reports `completed` on every poll and serves the result. -/
def envCompletedGoodResult : PollEnv :=
  ⟨fun _ => some ⟨true, .completed, none⟩,
   fun _ => some ⟨true, "https://x/y.ply", "y.ply", 12345⟩, fun _ => false⟩

/-- Backend that reports `pending` forever; the progress callback never
throws. -/
def envAlwaysPending : PollEnv :=
  ⟨fun _ => some ⟨true, .pending, none⟩, fun _ => none, fun _ => false⟩

/-- Backend that reports `pending` on the first poll — where the supplied
progress callback throws — and `completed` with a good result afterwards. -/
def envCallbackThrows : PollEnv :=
  ⟨fun n => if n == 1 then some ⟨true, .pending, none⟩ else some ⟨true, .completed, none⟩,
   fun _ => some ⟨true, "https://x/y.ply", "y.ply", 12345⟩,
   fun n => n == 1⟩

/-- An empty database. -/
def dbEmpty : DB :=
  ⟨[], []⟩

/-- A stored photo whose generated splat is still pending. -/
def photoP1 : Photo :=
  ⟨"p1", "cat.jpg", "CATBYTES", "blob:cat", 10, "default", none, some .pending⟩

/-- A stored photo that is mid-generation and already carries a splat URL. -/
def photoOldUrl : Photo :=
  ⟨"p2", "dog.jpg", "DOGBYTES", "blob:dog", 11, "default",
   some "https://old.ply", some .processing⟩

/-- A store holding `photoP1` and `photoOldUrl` in the default album. -/
def storeTwo : Store :=
  ⟨[photoP1, photoOldUrl], [⟨"default", "All Memories", 2, some "blob:cat", 5⟩],
   some "default"⟩

/-- A photo whose id collides with what `genPhotoId` produces at
`Date.now() = 5` with random suffix `"abc"`. -/
def photoDup : Photo :=
  ⟨"photo-5-abc", "old.jpg", "OLDBYTES", "blob:old", 5, "default", none,
   some .ready⟩

/-- A store already containing `photoDup`. -/
def storeDup : Store :=
  ⟨[photoDup], [⟨"default", "All Memories", 1, some "blob:old", 5⟩],
   some "default"⟩

/-- Upload environment whose clock is stuck at 5 and whose random suffix
is always `"abc"` — it regenerates exactly `photoDup`'s id. -/
def envDup : AddEnv :=
  ⟨fun _ => 5, fun _ => "abc", fun i => "blob:" ++ toString i⟩

/-- Upload environment with distinct timestamps per accepted file. -/
def envAddOk : AddEnv :=
  ⟨fun i => 100 + i, fun i => "s" ++ toString i, fun i => "blob:" ++ toString i⟩

/-- An image file. -/
def fileCat : StoredFile :=
  ⟨"cat.jpg", "image/jpeg", "CATDATA"⟩

/-- A non-image file (content type `text/plain`). -/
def fileNotes : StoredFile :=
  ⟨"notes.txt", "text/plain", "NOTES"⟩

/-- Another image file. -/
def fileDog : StoredFile :=
  ⟨"dog.png", "image/png", "DOGDATA"⟩

/-- Init environment: clock at 42, fresh object URLs per index. -/
def envInitW : InitEnv :=
  ⟨42, fun i => "blob:" ++ toString i⟩

/-- A database with no albums and two photos, one in the default album. -/
def dbInitW : DB :=
  ⟨[⟨"pa", "a.jpg", "ABYTES", 1, "default", none, some .pending⟩,
    ⟨"pb", "b.jpg", "BBYTES", 2, "other", none, none⟩],
   []⟩

/-! ### Poll-loop lemmas -/

/-- As long as the status endpoint never answers a terminal status, one
iteration's try body never returns and never touches the tracker. -/
theorem tryBody_nonTerminal (env : PollEnv) (hasCb : Bool) (attempt esec : Nat)
    (rid : String) (tracker : Tracker)
    (h : ∀ s, env.statusAt attempt = some s → s.ok = true →
      s.status ≠ JobStatus.completed ∧ s.status ≠ JobStatus.failed) :
    (∀ r, (tryBody env hasCb attempt esec rid tracker).res ≠ TryResult.ret r) ∧
    (tryBody env hasCb attempt esec rid tracker).tracker = tracker := by
  unfold tryBody
  cases hs : env.statusAt attempt with
  | none => simp
  | some s =>
    by_cases hok : s.ok = true
    · have hcf := h s hs hok
      cases hst : s.status <;>
        simp_all <;> split <;> simp_all
    · simp [hok]

/-- As long as the status endpoint never answers a terminal status, the
poll loop ends by throwing `'sharp_timeout'` with the tracker untouched. -/
theorem pollLoop_nonTerminal (env : PollEnv) (hasCb : Bool) (rid : String)
    (T : Nat)
    (h : ∀ n s, env.statusAt n = some s → s.ok = true →
      s.status ≠ JobStatus.completed ∧ s.status ≠ JobStatus.failed) :
    ∀ fuel elapsed attempt tracker,
      (pollLoop env hasCb rid T fuel elapsed attempt tracker).outcome =
        .error "sharp_timeout" ∧
      (pollLoop env hasCb rid T fuel elapsed attempt tracker).tracker = tracker := by
  intro fuel
  induction fuel with
  | zero => intro elapsed attempt tracker; exact ⟨rfl, rfl⟩
  | succ n ih =>
    intro elapsed attempt tracker
    by_cases he : elapsed < T
    · have ht := tryBody_nonTerminal env hasCb (attempt + 1) ((elapsed + 500) / 1000)
        rid tracker (h (attempt + 1))
      simp only [pollLoop, if_pos he]
      rcases hres : (tryBody env hasCb (attempt + 1) ((elapsed + 500) / 1000)
          rid tracker).res with r | msg | _
      · exact absurd hres (ht.1 r)
      · simp only [hres, ht.2]
        exact ih _ _ _
      · simp only [hres, ht.2]
        exact ih _ _ _
    · simp [pollLoop, if_neg he]

/-- Every `pollLoop` run either returns a `SharpResult` or throws
`'sharp_timeout'`: no exception raised inside the loop body (the progress
callback's included) ever escapes the surrounding `catch`. -/
theorem pollLoop_outcome_shape (env : PollEnv) (hasCb : Bool) (rid : String)
    (T : Nat) :
    ∀ fuel elapsed attempt tracker,
      (∃ r, (pollLoop env hasCb rid T fuel elapsed attempt tracker).outcome =
        .success r) ∨
      (pollLoop env hasCb rid T fuel elapsed attempt tracker).outcome =
        .error "sharp_timeout" := by
  intro fuel
  induction fuel with
  | zero => intro elapsed attempt tracker; exact Or.inr rfl
  | succ n ih =>
    intro elapsed attempt tracker
    by_cases he : elapsed < T
    · simp only [pollLoop, if_pos he]
      rcases hres : (tryBody env hasCb (attempt + 1) ((elapsed + 500) / 1000)
          rid tracker).res with r | msg | _
      · exact Or.inl ⟨r, by simp [hres]⟩
      · simp only [hres]
        exact ih _ _ _
      · simp only [hres]
        exact ih _ _ _
    · exact Or.inr (by simp [pollLoop, if_neg he])

/-- The `i`-th sleep of a `pollLoop` run started at attempt counter
`attempt` is `min(5000, 1000 + (attempt + i + 1) * 200)` ms. -/
theorem pollLoop_sleeps (env : PollEnv) (hasCb : Bool) (rid : String) (T : Nat) :
    ∀ fuel elapsed attempt tracker i v,
      (pollLoop env hasCb rid T fuel elapsed attempt tracker).sleeps.get? i = some v →
      v = min 5000 (1000 + (attempt + i + 1) * 200) := by
  intro fuel
  induction fuel with
  | zero =>
    intro elapsed attempt tracker i v hv
    simp [pollLoop] at hv
  | succ n ih =>
    intro elapsed attempt tracker i v hv
    by_cases he : elapsed < T
    · rcases hres : (tryBody env hasCb (attempt + 1) ((elapsed + 500) / 1000)
          rid tracker).res with r | msg | _
      all_goals simp only [pollLoop, if_pos he, hres] at hv
      · simp at hv
      all_goals
        match i with
        | 0 =>
          rw [List.get?_cons_zero] at hv
          exact (Option.some.inj hv).symm
        | Nat.succ j =>
          rw [List.get?_cons_succ] at hv
          have hj := ih _ _ _ j v hv
          have harith : attempt + 1 + j + 1 = attempt + (j + 1) + 1 := by omega
          rw [harith] at hj
          exact hj
    · simp [pollLoop, if_neg he] at hv

/-! ### Claim theorems: poll loop -/

/-- **C1.**  The claim says a `failed` status makes `waitForResult` fail
with the backend-supplied message.  In the code the `throw` sits inside
the per-iteration `try` whose `catch` absorbs every exception, so with a
backend that always answers `failed` (message `"boom"`) the job *is*
removed from the tracker and no result fetch is ever issued, but the
error is swallowed: the loop keeps polling and the call eventually fails
with the generic `'sharp_timeout'`, never with `"boom"`. -/
theorem c1_failed_job_error_swallowed :
    envAlwaysFailed.statusAt 1 = some ⟨true, .failed, some "boom"⟩ ∧
    (waitForResult envAlwaysFailed false "r1" defaultTimeoutMs [genR1]).tracker = [] ∧
    (waitForResult envAlwaysFailed false "r1" defaultTimeoutMs [genR1]).resultFetches = 0 ∧
    (waitForResult envAlwaysFailed false "r1" defaultTimeoutMs [genR1]).outcome =
      .error "sharp_timeout" ∧
    (waitForResult envAlwaysFailed false "r1" defaultTimeoutMs [genR1]).outcome ≠
      .error "boom" := by
  refine ⟨rfl, ?_, ?_, ?_, ?_⟩ <;> decide

/-- **C2.**  On `completed`, if the result fetch succeeds the claim holds:
exactly one result fetch, job removed, `{plyUrl, filename, sizeBytes}`
returned.  But if the result fetch fails, the thrown `'Failed to get
result'` is absorbed by the loop's `catch`: the fetch *is* retried on
every subsequent poll (44 times within the default budget) and the call
fails with `'sharp_timeout'` instead of failing hard. -/
theorem c2_result_fetch_not_hard_failure :
    ((waitForResult envCompletedGoodResult false "r1" defaultTimeoutMs [genR1]).outcome =
        .success ⟨"https://x/y.ply", "y.ply", 12345⟩ ∧
      (waitForResult envCompletedGoodResult false "r1" defaultTimeoutMs [genR1]).tracker = [] ∧
      (waitForResult envCompletedGoodResult false "r1" defaultTimeoutMs [genR1]).resultFetches = 1) ∧
    ((waitForResult envCompletedBadResult false "r1" defaultTimeoutMs [genR1]).resultFetches = 44 ∧
      (waitForResult envCompletedBadResult false "r1" defaultTimeoutMs [genR1]).outcome =
        .error "sharp_timeout") := by
  refine ⟨⟨?_, ?_, ?_⟩, ?_, ?_⟩ <;> decide

/-- **C3.**  If no status query ever reports a terminal state, the call
fails with the timeout error `'sharp_timeout'` and the job entry is left
untouched in the tracker, where only a manual `cleanupStale` sweep (once
the entry is older than the 5-minute staleness threshold) removes it;
the default budget is 180000 ms. -/
theorem c3_timeout_leaves_job_in_tracker (env : PollEnv) (hasCb : Bool)
    (rid : String) (T : Nat) (tracker : Tracker)
    (hNT : ∀ n s, env.statusAt n = some s → s.ok = true →
      s.status ≠ JobStatus.completed ∧ s.status ≠ JobStatus.failed) :
    (waitForResult env hasCb rid T tracker).outcome = .error "sharp_timeout" ∧
    (waitForResult env hasCb rid T tracker).tracker = tracker ∧
    (∀ g ∈ tracker, ∀ now, g.startTime + 5 * 60 * 1000 < now →
      g ∉ cleanupStale now (waitForResult env hasCb rid T tracker).tracker) ∧
    defaultTimeoutMs = 180000 := by
  obtain ⟨h1, h2⟩ := pollLoop_nonTerminal env hasCb rid T hNT (T + 1) 0 0 tracker
  refine ⟨h1, h2, ?_, rfl⟩
  intro g hg now hnow hmem
  rw [waitForResult, h2, cleanupStale, List.mem_filter] at hmem
  have : now - g.startTime > 5 * 60 * 1000 := by omega
  simp [this] at hmem

/-- Witness for C3: a backend stuck on `pending`, a 2-second budget, the
`r1` job registered at time 0, reaped manually at `now = 300001`. -/
theorem c3_timeout_leaves_job_in_tracker_witness :
    (waitForResult envAlwaysPending true "r1" 2000 [genR1]).outcome =
      .error "sharp_timeout" ∧
    (waitForResult envAlwaysPending true "r1" 2000 [genR1]).tracker = [genR1] ∧
    genR1 ∉ cleanupStale 300001
      (waitForResult envAlwaysPending true "r1" 2000 [genR1]).tracker := by
  have h := c3_timeout_leaves_job_in_tracker envAlwaysPending true "r1" 2000 [genR1]
    (by intro n s hs hok; cases hs; decide)
  exact ⟨h.1, h.2.1, h.2.2.1 genR1 (by decide) 300001 (by decide)⟩

/-- **C4.**  Every wait the poll loop performs after attempt `n` (the
`i`-th sleep, `n = i + 1`) is exactly `min(5000, 1000 + n * 200)` ms,
and a run that observes five non-terminal polls sleeps exactly
`[1200, 1400, 1600, 1800, 2000]` ms — deterministic, no jitter. -/
theorem c4_backoff_schedule :
    (∀ (env : PollEnv) (hasCb : Bool) (rid : String) (T : Nat)
        (tracker : Tracker) (i v : Nat),
      (waitForResult env hasCb rid T tracker).sleeps.get? i = some v →
      v = min 5000 (1000 + (i + 1) * 200)) ∧
    (waitForResult envAlwaysPending false "r1" 8000 [genR1]).sleeps =
      [1200, 1400, 1600, 1800, 2000] := by
  constructor
  · intro env hasCb rid T tracker i v hv
    have hs := pollLoop_sleeps env hasCb rid T (T + 1) 0 0 tracker i v hv
    simpa using hs
  · decide

/-- Witness for C4: the second sleep of the always-pending run is
`min(5000, 1000 + 2·200) = 1400` ms. -/
theorem c4_backoff_schedule_witness :
    (1400 : Nat) = min 5000 (1000 + (1 + 1) * 200) :=
  c4_backoff_schedule.1 envAlwaysPending false "r1" 8000 [genR1] 1 1400 (by decide)

/-- **C9 (counterexample).**  The claim says an exception thrown by the
progress callback propagates to the caller.  With a backend that reports
`pending` on attempt 1 — where the supplied callback throws — and
`completed` afterwards, the call nevertheless *returns successfully*:
the callback's exception was absorbed by the loop's `catch`, not
propagated. -/
theorem c9_progress_callback_counterexample :
    envCallbackThrows.progressThrows 1 = true ∧
    envCallbackThrows.statusAt 1 = some ⟨true, .pending, none⟩ ∧
    (waitForResult envCallbackThrows true "r1" defaultTimeoutMs [genR1]).progressLog =
      ["Generating splat... (0s)"] ∧
    (waitForResult envCallbackThrows true "r1" defaultTimeoutMs [genR1]).outcome =
      .success ⟨"https://x/y.ply", "y.ply", 12345⟩ := by
  refine ⟨rfl, rfl, ?_, ?_⟩ <;> decide

/-- **C9 (amended).**  The poll loop's per-iteration `catch` absorbs a
throwing progress callback like any other in-loop failure: no exception
raised inside the loop ever reaches the caller, who only ever observes a
returned `SharpResult` or the `'sharp_timeout'` error. -/
theorem c9_amended_callback_exception_absorbed (env : PollEnv) (hasCb : Bool)
    (rid : String) (T : Nat) (tracker : Tracker) :
    (∃ r, (waitForResult env hasCb rid T tracker).outcome = .success r) ∨
    (waitForResult env hasCb rid T tracker).outcome = .error "sharp_timeout" :=
  pollLoop_outcome_shape env hasCb rid T (T + 1) 0 0 tracker

/-! ### Entity-store lemmas -/

/-- Replacing the photo `find?` located keeps it the `find?` result. -/
theorem find?_replaceFirstPhoto (ps : List Photo) (pid : String) (p p' : Photo)
    (hfind : ps.find? (fun q => q.id == pid) = some p) (hid : p'.id = p.id) :
    (replaceFirstPhoto ps pid p').find? (fun q => q.id == pid) = some p' := by
  induction ps with
  | nil => simp at hfind
  | cons q rest ih =>
    cases hq : (q.id == pid) with
    | false =>
      have hrest : rest.find? (fun r => r.id == pid) = some p := by
        simpa [List.find?_cons, hq] using hfind
      simp [replaceFirstPhoto, hq, List.find?_cons, ih hrest]
    | true =>
      obtain rfl : q = p := by simpa [List.find?_cons, hq] using hfind
      simp [replaceFirstPhoto, hq, List.find?_cons, hid]

/-- Replacing the first match by a photo that `f` cannot tell apart from
it leaves the `f`-image of the array unchanged. -/
theorem replaceFirstPhoto_map_congr {α : Type} (f : Photo → α) (ps : List Photo)
    (pid : String) (p p' : Photo)
    (hfind : ps.find? (fun q => q.id == pid) = some p) (hf : f p' = f p) :
    (replaceFirstPhoto ps pid p').map f = ps.map f := by
  induction ps with
  | nil => simp at hfind
  | cons q rest ih =>
    cases hq : (q.id == pid) with
    | false =>
      have hrest : rest.find? (fun r => r.id == pid) = some p := by
        simpa [List.find?_cons, hq] using hfind
      simp [replaceFirstPhoto, hq, ih hrest]
    | true =>
      obtain rfl : q = p := by simpa [List.find?_cons, hq] using hfind
      simp [replaceFirstPhoto, hq, hf]

/-- Membership after a `put` on the photos store: the old records (except
the overwritten key) and the new one. -/
theorem putPhotoRecord_mem (db : DB) (x r : PhotoRecord)
    (h : r ∈ (putPhotoRecord db x).photosDB) : r ∈ db.photosDB ∨ r = x := by
  unfold putPhotoRecord at h
  split at h
  · simp only [List.mem_map] at h
    obtain ⟨q, hq, hqr⟩ := h
    by_cases hid : (q.id == x.id) = true
    · rw [if_pos hid] at hqr
      exact Or.inr hqr.symm
    · rw [if_neg hid] at hqr
      exact Or.inl (hqr ▸ hq)
  · rcases List.mem_append.1 h with h1 | h1
    · exact Or.inl h1
    · exact Or.inr (by simpa using h1)

/-- The record just `put` is in the photos store. -/
theorem putPhotoRecord_mem_self (db : DB) (x : PhotoRecord) :
    x ∈ (putPhotoRecord db x).photosDB := by
  unfold putPhotoRecord
  split
  · next hany =>
    simp only [List.any_eq_true] at hany
    obtain ⟨q, hq, hid⟩ := hany
    exact List.mem_map.2 ⟨q, hq, by rw [if_pos hid]⟩
  · simp

/-- A record whose key differs from the `put` one survives the `put`. -/
theorem putPhotoRecord_preserves (db : DB) (x r : PhotoRecord)
    (hr : r ∈ db.photosDB) (hne : ¬(r.id = x.id)) :
    r ∈ (putPhotoRecord db x).photosDB := by
  unfold putPhotoRecord
  split
  · refine List.mem_map.2 ⟨r, hr, ?_⟩
    rw [if_neg (by simpa using hne)]
  · exact List.mem_append_left _ hr

/-- A `put` on the photos store does not touch the albums store. -/
theorem putPhotoRecord_albumsDB (db : DB) (x : PhotoRecord) :
    (putPhotoRecord db x).albumsDB = db.albumsDB := by
  unfold putPhotoRecord; split <;> rfl

/-- A `put` on the albums store does not touch the photos store. -/
theorem putAlbum_photosDB (db : DB) (a : Album) :
    (putAlbum db a).photosDB = db.photosDB := by
  unfold putAlbum; split <;> rfl

/-- `updatePhotoSplatStatus` with an unknown id is a complete no-op. -/
theorem update_not_found (st : Store) (db : DB) (pid : String)
    (status : Option SplatStatus) (url : Option String)
    (h : st.photos.find? (fun q => q.id == pid) = none) :
    updatePhotoSplatStatus st db pid status url = ⟨st, db, none, false⟩ := by
  simp [updatePhotoSplatStatus, h]

/-- `updatePhotoSplatStatus` on the photo `find?` locates. -/
theorem update_found (st : Store) (db : DB) (pid : String)
    (status : Option SplatStatus) (url : Option String) (q : Photo)
    (h : st.photos.find? (fun p => p.id == pid) = some q) :
    updatePhotoSplatStatus st db pid status url =
      ⟨{ st with
           photos := replaceFirstPhoto st.photos pid
             { q with splatStatus := status,
                      splatUrl := if jsTruthy url then url else q.splatUrl } },
        putPhotoRecord db (recordOf
          { q with splatStatus := status,
                   splatUrl := if jsTruthy url then url else q.splatUrl }),
        some q.splatStatus, true⟩ := by
  simp [updatePhotoSplatStatus, h]

/-! ### Claim theorems: entity store -/

/-- **C8 (counterexample).**  The claim says `updatePhotoSplatStatus(id,
'ready', url)` sets the photo's `splatUrl` to `url`.  With `url = ''` the
JS truthiness guard `if (splatUrl)` skips the assignment: photo `p2`
keeps its old splat URL (visible via `getPhotos`) even though its status
was set to `ready`. -/
theorem c8_update_ready_counterexample :
    (((getPhotos (updatePhotoSplatStatus storeTwo dbEmpty "p2"
          (some .ready) (some "")).store).find?
        (fun p => p.id == "p2")).map (fun p => (p.splatStatus, p.splatUrl)) =
      some (some SplatStatus.ready, some "https://old.ply")) ∧
    some "https://old.ply" ≠ some "" := by
  exact ⟨by decide, by decide⟩

/-- **C8 (amended).**  `updatePhotoSplatStatus(id, 'ready', url)` with a
*nonempty* `url` makes the matching photo show `splatStatus = ready` and
`splatUrl = url` in a subsequent `getPhotos` (an empty `url` is dropped
by the `if (splatUrl)` truthiness guard); with an id matching no photo
the call mutates nothing, raises no error and fires no change
notification. -/
theorem c8_update_ready_visible_unknown_noop (st : Store) (db : DB)
    (pid url : String) (status : Option SplatStatus) (splatUrl : Option String)
    (hurl : ¬(url = "")) :
    ((getPhotos (updatePhotoSplatStatus st db pid (some .ready) (some url)).store).find?
        (fun p => p.id == pid) =
      ((getPhotos st).find? (fun p => p.id == pid)).map
        (fun p => { p with splatStatus := some SplatStatus.ready, splatUrl := some url })) ∧
    (st.photos.find? (fun p => p.id == pid) = none →
      (updatePhotoSplatStatus st db pid status splatUrl).store = st ∧
      (updatePhotoSplatStatus st db pid status splatUrl).db = db ∧
      (updatePhotoSplatStatus st db pid status splatUrl).notified = false) := by
  constructor
  · cases hfind : st.photos.find? (fun p => p.id == pid) with
    | none =>
      rw [update_not_found st db pid (some .ready) (some url) hfind]
      simp [getPhotos, hfind]
    | some q =>
      rw [update_found st db pid (some .ready) (some url) q hfind]
      have htr : jsTruthy (some url) = true := by
        simp [jsTruthy, hurl]
      rw [getPhotos, getPhotos]
      have := find?_replaceFirstPhoto st.photos pid q
        { q with splatStatus := some SplatStatus.ready,
                 splatUrl := if jsTruthy (some url) then some url else q.splatUrl }
        hfind rfl
      rw [this, hfind, htr]
      simp
  · intro hnone
    rw [update_not_found st db pid status splatUrl hnone]
    exact ⟨rfl, rfl, rfl⟩

/-- Witness for C8 (amended): updating `p1` to ready with a nonempty URL
shows up in `getPhotos`; updating the unknown id `nope` is a no-op. -/
theorem c8_update_ready_visible_unknown_noop_witness :
    ((getPhotos (updatePhotoSplatStatus storeTwo dbEmpty "p1"
          (some .ready) (some "https://x/y.ply")).store).find?
        (fun p => p.id == "p1") =
      ((getPhotos storeTwo).find? (fun p => p.id == "p1")).map
        (fun p => { p with splatStatus := some SplatStatus.ready,
                           splatUrl := some "https://x/y.ply" })) ∧
    ((updatePhotoSplatStatus storeTwo dbEmpty "nope"
        (some .failed) none).store = storeTwo ∧
      (updatePhotoSplatStatus storeTwo dbEmpty "nope"
        (some .failed) none).db = dbEmpty ∧
      (updatePhotoSplatStatus storeTwo dbEmpty "nope"
        (some .failed) none).notified = false) :=
  ⟨(c8_update_ready_visible_unknown_noop storeTwo dbEmpty "p1" "https://x/y.ply"
      (some .failed) none (by decide)).1,
   (c8_update_ready_visible_unknown_noop storeTwo dbEmpty "nope" "https://x/y.ply"
      (some .failed) none (by decide)).2 (by decide)⟩

/-- **C10.**  A call that supplies no `splatUrl` (e.g. marking a photo
`failed`) changes at most the `splatStatus` of the matching in-memory
photo — in particular every photo's `splatUrl` is untouched — and the
record it persists keeps the pre-call `splatUrl` of the matching photo,
carrying only the new status. -/
theorem c10_update_without_url_preserves_splatUrl (st : Store) (db : DB)
    (pid : String) (status : Option SplatStatus) :
    ((updatePhotoSplatStatus st db pid status none).store.photos.map
        (fun p => p.splatUrl) = st.photos.map (fun p => p.splatUrl)) ∧
    ((updatePhotoSplatStatus st db pid status none).store.photos.map
        (fun p => { p with splatStatus := none }) =
      st.photos.map (fun p => { p with splatStatus := none })) ∧
    (∀ r ∈ (updatePhotoSplatStatus st db pid status none).db.photosDB,
      r ∈ db.photosDB ∨ ∃ p ∈ st.photos, r.id = p.id ∧ r.splatUrl = p.splatUrl ∧
        r.splatStatus = status) := by
  cases hfind : st.photos.find? (fun p => p.id == pid) with
  | none =>
    rw [update_not_found st db pid status none hfind]
    exact ⟨rfl, rfl, fun r hr => Or.inl hr⟩
  | some q =>
    rw [update_found st db pid status none q hfind]
    have hq' : (⟨q.id, q.name, q.blobContent, q.url, q.timestamp, q.albumId,
        if jsTruthy none then none else q.splatUrl, status⟩ : Photo) =
        { q with splatStatus := status,
                 splatUrl := if jsTruthy none then none else q.splatUrl } := rfl
    refine ⟨?_, ?_, ?_⟩
    · exact replaceFirstPhoto_map_congr _ st.photos pid q _ hfind (by simp [jsTruthy])
    · exact replaceFirstPhoto_map_congr _ st.photos pid q _ hfind (by simp [jsTruthy])
    · intro r hr
      rcases putPhotoRecord_mem db _ r hr with h | h
      · exact Or.inl h
      · refine Or.inr ⟨q, List.mem_of_find?_eq_some hfind, ?_, ?_, ?_⟩ <;>
          simp [h, recordOf, jsTruthy]

/-- Witness for C10: marking `p2` failed with no URL keeps both photos'
`splatUrl` fields, and the record persisted for `p2` carries its old
splat URL with the new `failed` status. -/
theorem c10_update_without_url_preserves_splatUrl_witness :
    ((updatePhotoSplatStatus storeTwo dbEmpty "p2" (some .failed) none).store.photos.map
        (fun p => p.splatUrl) = storeTwo.photos.map (fun p => p.splatUrl)) ∧
    ((updatePhotoSplatStatus storeTwo dbEmpty "p2" (some .failed) none).store.photos.map
        (fun p => { p with splatStatus := none }) =
      storeTwo.photos.map (fun p => { p with splatStatus := none })) ∧
    (recordOf { photoOldUrl with splatStatus := some SplatStatus.failed } ∈ dbEmpty.photosDB ∨
      ∃ p ∈ storeTwo.photos,
        (recordOf { photoOldUrl with splatStatus := some SplatStatus.failed }).id = p.id ∧
        (recordOf { photoOldUrl with splatStatus := some SplatStatus.failed }).splatUrl = p.splatUrl ∧
        (recordOf { photoOldUrl with splatStatus := some SplatStatus.failed }).splatStatus =
          some SplatStatus.failed) := by
  have h := c10_update_without_url_preserves_splatUrl storeTwo dbEmpty "p2"
    (some SplatStatus.failed)
  exact ⟨h.1, h.2.1, h.2.2 (recordOf { photoOldUrl with splatStatus := some SplatStatus.failed })
    (by decide)⟩

/-- An array entry whose id differs from the replaced one survives the
in-place replacement. -/
theorem replaceFirstPhoto_mem_of_ne (pid : String) (p' x : Photo)
    (hne : ¬(x.id = pid)) :
    ∀ (ps : List Photo), x ∈ ps → x ∈ replaceFirstPhoto ps pid p' := by
  intro ps
  induction ps with
  | nil => intro hx; cases hx
  | cons q rest ih =>
    intro hx
    cases hq : (q.id == pid) with
    | true =>
      rw [replaceFirstPhoto, if_pos hq]
      rcases List.mem_cons.1 hx with rfl | hx'
      · exact absurd (by simpa using hq) hne
      · exact List.mem_cons_of_mem _ hx'
    | false =>
      rw [replaceFirstPhoto, if_neg (by simp [hq])]
      rcases List.mem_cons.1 hx with rfl | hx'
      · exact List.mem_cons_self _ _
      · exact List.mem_cons_of_mem _ (ih hx')

/-- Replacing the first id-match by a photo carrying that same id leaves
the array's id sequence unchanged. -/
theorem replaceFirstPhoto_map_id (ps : List Photo) (pid : String) (p' : Photo)
    (hid : p'.id = pid) :
    (replaceFirstPhoto ps pid p').map (fun q => q.id) = ps.map (fun q => q.id) := by
  induction ps with
  | nil => rfl
  | cons q rest ih =>
    cases hq : (q.id == pid) with
    | true =>
      rw [replaceFirstPhoto, if_pos hq]
      have : q.id = pid := by simpa using hq
      simp [hid, this]
    | false =>
      rw [replaceFirstPhoto, if_neg (by simp [hq])]
      simp [ih]

/-- When the array's ids are pairwise distinct, `find?` by the id of a
member returns that very member. -/
theorem find?_of_mem_nodup_ids :
    ∀ (ps : List Photo) (p : Photo),
      (ps.map (fun q => q.id)).Nodup → p ∈ ps →
      ps.find? (fun q => q.id == p.id) = some p := by
  intro ps
  induction ps with
  | nil => intro p _ hp; cases hp
  | cons q rest ih =>
    intro p hnd hp
    have hmap : (q.id :: rest.map (fun r => r.id)).Nodup := by simpa using hnd
    have hnotin : q.id ∉ rest.map (fun r => r.id) := (List.nodup_cons.1 hmap).1
    have htail : (rest.map (fun r => r.id)).Nodup := (List.nodup_cons.1 hmap).2
    rcases List.mem_cons.1 hp with rfl | hp'
    · exact List.find?_cons_of_pos _ (by simp)
    · have hqe : (q.id == p.id) = false := by
        have hpid : p.id ∈ rest.map (fun r => r.id) := List.mem_map_of_mem _ hp'
        simp only [beq_eq_false_iff_ne, ne_eq]
        intro hqp
        exact hnotin (hqp ▸ hpid)
      simp only [List.find?_cons, hqe]
      exact ih p htail hp'

/-- Every splat-status transition `generateSplatsForPhotos` applies is a
forward one, *provided* the store's photo ids are pairwise distinct and
the photos passed in are (distinct) store members — then each write's
first id-match is the passed photo itself.  (Without that proviso the
first id-match can be another, already `ready` photo; see the C5
counterexample.) -/
theorem generateSplats_transitions_forward (outcome : String → Option String) :
    ∀ (input : List Photo) (st : Store) (db : DB),
      (st.photos.map (fun q => q.id)).Nodup →
      input.Nodup →
      (∀ p ∈ input, p ∈ st.photos) →
      ∀ t ∈ (generateSplatsForPhotos outcome input st db).2.2, forwardTransition t := by
  intro input
  induction input with
  | nil =>
    intro st db _ _ _ t ht
    simp [generateSplatsForPhotos] at ht
  | cons p rest ih =>
    intro st db hnd hinput hmem t ht
    have hrest : rest.Nodup := (List.nodup_cons.1 hinput).2
    have hpnotin : p ∉ rest := (List.nodup_cons.1 hinput).1
    simp only [generateSplatsForPhotos] at ht
    by_cases hpend : p.splatStatus = some SplatStatus.pending
    · have hpmem : p ∈ st.photos := hmem p (List.mem_cons_self _ _)
      have hfind : st.photos.find? (fun q => q.id == p.id) = some p :=
        find?_of_mem_nodup_ids st.photos p hnd hpmem
      have hfind1 := find?_replaceFirstPhoto st.photos p.id p
        { p with splatStatus := some SplatStatus.processing,
                 splatUrl := if jsTruthy none then none else p.splatUrl } hfind rfl
      have hmemrest : ∀ q ∈ rest, q ∈ st.photos ∧ ¬(q.id = p.id) := by
        intro q hq
        have hqmem : q ∈ st.photos := hmem q (List.mem_cons_of_mem _ hq)
        refine ⟨hqmem, fun hqid => ?_⟩
        have hqp : q = p :=
          List.inj_on_of_nodup_map hnd hqmem hpmem (by simpa using hqid)
        exact hpnotin (hqp ▸ hq)
      rw [if_pos (by simp [hpend])] at ht
      rw [update_found st db p.id (some SplatStatus.processing) none p hfind] at ht
      cases houtc : outcome p.id with
      | some url =>
        simp only [houtc] at ht
        rw [update_found _ _ p.id (some SplatStatus.ready) (some url) _ hfind1] at ht
        simp only [transitionsOf, hpend, List.cons_append, List.nil_append,
          List.mem_cons] at ht
        rcases ht with rfl | rfl | hmem'
        · exact Or.inl ⟨rfl, rfl⟩
        · exact Or.inr ⟨rfl, Or.inl rfl⟩
        · refine ih _ _ ?_ hrest ?_ t hmem'
          · simp only [replaceFirstPhoto_map_id]
            exact hnd
          · intro q hq
            obtain ⟨hqmem, hqid⟩ := hmemrest q hq
            exact replaceFirstPhoto_mem_of_ne p.id _ q hqid _
              (replaceFirstPhoto_mem_of_ne p.id _ q hqid _ hqmem)
      | none =>
        simp only [houtc] at ht
        rw [update_found _ _ p.id (some SplatStatus.failed) none _ hfind1] at ht
        simp only [transitionsOf, hpend, List.cons_append, List.nil_append,
          List.mem_cons] at ht
        rcases ht with rfl | rfl | hmem'
        · exact Or.inl ⟨rfl, rfl⟩
        · exact Or.inr ⟨rfl, Or.inr rfl⟩
        · refine ih _ _ ?_ hrest ?_ t hmem'
          · simp only [replaceFirstPhoto_map_id]
            exact hnd
          · intro q hq
            obtain ⟨hqmem, hqid⟩ := hmemrest q hq
            exact replaceFirstPhoto_mem_of_ne p.id _ q hqid _
              (replaceFirstPhoto_mem_of_ne p.id _ q hqid _ hqmem)
    · rw [if_neg (by simp [hpend])] at ht
      exact ih st db hnd hrest (fun q hq => hmem q (List.mem_cons_of_mem _ hq)) t ht

/-- `addPhotosFromFiles` only appends: the resulting photo array is the
old one followed by the accepted photos. -/
theorem addPhotosFromFiles_photos_append (env : AddEnv) (files : List StoredFile)
    (albumId : Option String) (st : Store) (db : DB) :
    (addPhotosFromFiles env files albumId st db).store.photos =
      st.photos ++ (addPhotosFromFiles env files albumId st db).returned := by
  cases hfind : st.albums.find?
      (fun a => a.id == jsOrElse albumId st.currentAlbumId "default") with
  | none => simp [addPhotosFromFiles, hfind]
  | some album => simp [addPhotosFromFiles, hfind]

/-- **C5 (counterexample).**  The claim fails on the code: in the
duplicate-id state the id-collision of the C6 counterexample reaches,
the core's own pipeline — upload, then `generateSplatsForPhotos` on the
returned photos (the repository's one call site) — passes the new
*pending* photo, whose guard read proceeds, while the status write goes
to the array's first id-match: the old **ready** photo.  The applied
transition `ready → processing` is backward. -/
theorem c5_backward_transition_counterexample :
    (⟨"photo-5-abc", some SplatStatus.ready, some SplatStatus.processing⟩ : Transition) ∈
      (generateSplatsForPhotos (fun _ => some "https://x/y.ply")
        (addPhotosFromFiles envDup [fileCat] none storeDup dbEmpty).returned
        (addPhotosFromFiles envDup [fileCat] none storeDup dbEmpty).store
        (addPhotosFromFiles envDup [fileCat] none storeDup dbEmpty).db).2.2 ∧
    ¬ forwardTransition
        ⟨"photo-5-abc", some SplatStatus.ready, some SplatStatus.processing⟩ := by
  constructor
  · decide
  · intro h
    rcases h with ⟨h1, -⟩ | ⟨h1, -⟩ <;> simp at h1

/-- **C5 (amended).**  Provided no two photos in the store share an id
and the photos passed in are (distinct) store members — every state the
core reaches without a generated-id collision — every splat-status
transition `generateSplatsForPhotos` applies is forward:
`pending → processing`, then `processing → {ready | failed}`; and photo
upload (`addPhotosFromFiles`) leaves every pre-existing photo untouched,
only appending freshly created ones.  With a duplicated id the write
hits the first id-match and can go backward (see the counterexample). -/
theorem c5_amended_forward_when_ids_unique :
    (∀ (outcome : String → Option String) (input : List Photo) (st : Store) (db : DB),
      (st.photos.map (fun q => q.id)).Nodup →
      input.Nodup →
      (∀ p ∈ input, p ∈ st.photos) →
      ∀ t ∈ (generateSplatsForPhotos outcome input st db).2.2, forwardTransition t) ∧
    (∀ (env : AddEnv) (files : List StoredFile) (albumId : Option String)
        (st : Store) (db : DB),
      (addPhotosFromFiles env files albumId st db).store.photos =
        st.photos ++ (addPhotosFromFiles env files albumId st db).returned) :=
  ⟨fun outcome => generateSplats_transitions_forward outcome,
   addPhotosFromFiles_photos_append⟩

/-- Witness for C5 (amended): in the duplicate-free run that converts
the pending `p1` successfully, the applied transition
`processing → ready` is forward, and a concrete upload only appends. -/
theorem c5_amended_forward_when_ids_unique_witness :
    forwardTransition ⟨"p1", some SplatStatus.processing, some SplatStatus.ready⟩ ∧
    (addPhotosFromFiles envAddOk [fileCat] none storeTwo dbEmpty).store.photos =
      storeTwo.photos ++ (addPhotosFromFiles envAddOk [fileCat] none storeTwo dbEmpty).returned :=
  ⟨c5_amended_forward_when_ids_unique.1 (fun _ => some "https://x/y.ply") [photoP1]
      storeTwo dbEmpty (by decide) (by decide) (by decide)
      ⟨"p1", some SplatStatus.processing, some SplatStatus.ready⟩ (by decide),
   c5_amended_forward_when_ids_unique.2 envAddOk [fileCat] none storeTwo dbEmpty⟩

/-! ### Upload-loop lemmas -/

/-- The accepted photos are exactly the image-typed files, in order, each
created with `splatStatus = pending`. -/
theorem addPhotosGo_returned_fields (env : AddEnv) (aid : String) :
    ∀ (files : List StoredFile) (i : Nat) (db : DB),
      (addPhotosGo env aid files i db).1.map
          (fun p => (p.name, p.blobContent, p.splatStatus)) =
        (files.filter (fun f => jsStartsWith f.type "image/")).map
          (fun f => (f.name, f.content, some SplatStatus.pending)) := by
  intro files
  induction files with
  | nil => intro i db; simp [addPhotosGo]
  | cons f fs ih =>
    intro i db
    cases himg : jsStartsWith f.type "image/" with
    | true => simp [addPhotosGo, himg, List.filter_cons, ih]
    | false => simp [addPhotosGo, himg, List.filter_cons, ih]

/-- The accepted photos' ids are `genPhotoId` applied to consecutive
accepted-file indices. -/
theorem addPhotosGo_returned_ids (env : AddEnv) (aid : String) :
    ∀ (files : List StoredFile) (i : Nat) (db : DB),
      (addPhotosGo env aid files i db).1.map (fun p => p.id) =
        (List.range' i (files.filter (fun f => jsStartsWith f.type "image/")).length).map
          (genPhotoId env) := by
  intro files
  induction files with
  | nil => intro i db; simp [addPhotosGo]
  | cons f fs ih =>
    intro i db
    cases himg : jsStartsWith f.type "image/" with
    | true => simp [addPhotosGo, himg, List.filter_cons, List.range'_succ, ih]
    | false => simp [addPhotosGo, himg, List.filter_cons, ih]

/-- A stored record whose key differs from every id generated later in
the batch survives the upload loop. -/
theorem addPhotosGo_db_preserves (env : AddEnv) (aid : String) :
    ∀ (files : List StoredFile) (i : Nat) (db : DB) (r : PhotoRecord),
      r ∈ db.photosDB →
      (∀ j, i ≤ j → j < i + (files.filter (fun f => jsStartsWith f.type "image/")).length →
        r.id ≠ genPhotoId env j) →
      r ∈ (addPhotosGo env aid files i db).2.photosDB := by
  intro files
  induction files with
  | nil => intro i db r hr _; simpa [addPhotosGo] using hr
  | cons f fs ih =>
    intro i db r hr hne
    cases himg : jsStartsWith f.type "image/" with
    | true =>
      simp only [addPhotosGo, himg, if_pos]
      refine ih (i + 1) _ r ?_ ?_
      · refine putPhotoRecord_preserves db _ r hr ?_
        have hcount : (List.filter (fun f => jsStartsWith f.type "image/") (f :: fs)).length =
            (List.filter (fun f => jsStartsWith f.type "image/") fs).length + 1 := by
          simp [List.filter_cons, himg]
        exact hne i (Nat.le_refl i) (by omega)
      · intro j hj hjlt
        have hcount : (List.filter (fun f => jsStartsWith f.type "image/") (f :: fs)).length =
            (List.filter (fun f => jsStartsWith f.type "image/") fs).length + 1 := by
          simp [List.filter_cons, himg]
        exact hne j (by omega) (by omega)
    | false =>
      simp only [addPhotosGo, himg]
      have hcount : (List.filter (fun f => jsStartsWith f.type "image/") (f :: fs)).length =
          (List.filter (fun f => jsStartsWith f.type "image/") fs).length := by
        simp [List.filter_cons, himg]
      refine ih i db r hr ?_
      intro j hj hjlt
      exact hne j hj (by omega)

/-- When the ids generated for the batch are pairwise distinct, every
accepted photo's record is in the photos store after the loop. -/
theorem addPhotosGo_mem_db (env : AddEnv) (aid : String) :
    ∀ (files : List StoredFile) (i : Nat) (db : DB),
      (∀ j k, i ≤ j → j < k →
        k < i + (files.filter (fun f => jsStartsWith f.type "image/")).length →
        genPhotoId env j ≠ genPhotoId env k) →
      ∀ p ∈ (addPhotosGo env aid files i db).1,
        recordOf p ∈ (addPhotosGo env aid files i db).2.photosDB := by
  intro files
  induction files with
  | nil => intro i db _ p hp; simp [addPhotosGo] at hp
  | cons f fs ih =>
    intro i db hInj p hp
    cases himg : jsStartsWith f.type "image/" with
    | true =>
      have hcount : (List.filter (fun f => jsStartsWith f.type "image/") (f :: fs)).length =
          (List.filter (fun f => jsStartsWith f.type "image/") fs).length + 1 := by
        simp [List.filter_cons, himg]
      simp only [addPhotosGo, himg, if_pos] at hp ⊢
      rcases List.mem_cons.1 hp with rfl | hp'
      · refine addPhotosGo_db_preserves env aid fs (i + 1) _ _
          (putPhotoRecord_mem_self db _) ?_
        intro j hj hjlt
        show genPhotoId env i ≠ genPhotoId env j
        exact hInj i j (Nat.le_refl i) (by omega) (by omega)
      · refine ih (i + 1) _ ?_ p hp'
        intro j k hj hjk hk
        exact hInj j k (by omega) hjk (by omega)
    | false =>
      have hcount : (List.filter (fun f => jsStartsWith f.type "image/") (f :: fs)).length =
          (List.filter (fun f => jsStartsWith f.type "image/") fs).length := by
        simp [List.filter_cons, himg]
      simp only [addPhotosGo, himg] at hp ⊢
      refine ih i db ?_ p hp
      intro j k hj hjk hk
      exact hInj j k hj hjk (by omega)

/-- The `returned` list of `addPhotosFromFiles` is the upload loop's
accepted list, whatever the album lookup finds. -/
theorem addPhotosFromFiles_returned (env : AddEnv) (files : List StoredFile)
    (albumId : Option String) (st : Store) (db : DB) :
    (addPhotosFromFiles env files albumId st db).returned =
      (addPhotosGo env (jsOrElse albumId st.currentAlbumId "default") files 0 db).1 := by
  cases hfind : st.albums.find?
      (fun a => a.id == jsOrElse albumId st.currentAlbumId "default") with
  | none => simp [addPhotosFromFiles, hfind]
  | some album => simp [addPhotosFromFiles, hfind]

/-- The photos store after `addPhotosFromFiles` is the upload loop's
(the album `put` only touches the albums store). -/
theorem addPhotosFromFiles_photosDB (env : AddEnv) (files : List StoredFile)
    (albumId : Option String) (st : Store) (db : DB) :
    (addPhotosFromFiles env files albumId st db).db.photosDB =
      (addPhotosGo env (jsOrElse albumId st.currentAlbumId "default") files 0 db).2.photosDB := by
  cases hfind : st.albums.find?
      (fun a => a.id == jsOrElse albumId st.currentAlbumId "default") with
  | none => simp [addPhotosFromFiles, hfind]
  | some album => simp [addPhotosFromFiles, hfind, putAlbum_photosDB]

/-- **C6 (counterexample).**  The claim says each accepted file gets an id
distinct from every id already in the store, but the code derives the id
from `Date.now()` and `Math.random()` with no collision check: in an
environment whose clock reads 5 and whose random suffix is `"abc"`, the
accepted photo's id `photo-5-abc` equals the id of a photo already
stored. -/
theorem c6_fresh_id_counterexample :
    (addPhotosFromFiles envDup [fileCat] none storeDup dbEmpty).returned.map
        (fun p => p.id) = ["photo-5-abc"] ∧
    "photo-5-abc" ∈ storeDup.photos.map (fun p => p.id) := by
  exact ⟨by decide, by decide⟩

/-- **C6 (amended).**  `addPhotosFromFiles` accepts exactly the files
whose content type starts with `image/` (silently skipping the rest
without failing the batch), creates each accepted photo with
`splatStatus = pending`, only appends to the photo array, and persists
every accepted photo — and, *provided* the generated timestamp/random
ids collide neither with the stored ids nor with each other (the code
does not check this), the accepted ids are distinct from every id
already in the store and pairwise distinct. -/
theorem c6_amended_accepted_files (env : AddEnv) (files : List StoredFile)
    (albumId : Option String) (st : Store) (db : DB)
    (hFresh : ∀ i < (files.filter (fun f => jsStartsWith f.type "image/")).length,
      genPhotoId env i ∉ st.photos.map (fun p => p.id))
    (hInj : ∀ j < (files.filter (fun f => jsStartsWith f.type "image/")).length,
      ∀ i < j, genPhotoId env i ≠ genPhotoId env j) :
    ((addPhotosFromFiles env files albumId st db).returned.map
        (fun p => (p.name, p.blobContent, p.splatStatus)) =
      (files.filter (fun f => jsStartsWith f.type "image/")).map
        (fun f => (f.name, f.content, some SplatStatus.pending))) ∧
    ((addPhotosFromFiles env files albumId st db).store.photos =
      st.photos ++ (addPhotosFromFiles env files albumId st db).returned) ∧
    (∀ p ∈ (addPhotosFromFiles env files albumId st db).returned,
      p.id ∉ st.photos.map (fun q => q.id)) ∧
    ((addPhotosFromFiles env files albumId st db).returned.map
        (fun p => p.id)).Nodup ∧
    (∀ p ∈ (addPhotosFromFiles env files albumId st db).returned,
      recordOf p ∈ (addPhotosFromFiles env files albumId st db).db.photosDB) := by
  have hret := addPhotosFromFiles_returned env files albumId st db
  have hids := addPhotosGo_returned_ids env
    (jsOrElse albumId st.currentAlbumId "default") files 0 db
  refine ⟨?_, addPhotosFromFiles_photos_append env files albumId st db, ?_, ?_, ?_⟩
  · rw [hret]
    exact addPhotosGo_returned_fields env _ files 0 db
  · intro p hp
    have hidmem : p.id ∈ (addPhotosFromFiles env files albumId st db).returned.map
        (fun p => p.id) := List.mem_map_of_mem _ hp
    rw [hret, hids] at hidmem
    obtain ⟨k, hk, hgenk⟩ := List.mem_map.1 hidmem
    have hkn := (List.mem_range'_1.1 hk).2
    rw [← hgenk]
    exact hFresh k (by omega)
  · rw [hret, hids]
    refine List.Nodup.map_on ?_ (List.nodup_range' _ _)
    intro x hx y hy hxy
    have hxn := (List.mem_range'_1.1 hx).2
    have hyn := (List.mem_range'_1.1 hy).2
    rcases Nat.lt_trichotomy x y with h | h | h
    · exact absurd hxy (hInj y (by omega) x h)
    · exact h
    · exact absurd hxy.symm (hInj x (by omega) y h)
  · intro p hp
    rw [addPhotosFromFiles_photosDB env files albumId st db]
    rw [hret] at hp
    refine addPhotosGo_mem_db env _ files 0 db ?_ p hp
    intro j k hj hjk hk
    exact hInj k (by omega) j hjk

/-- Witness for C6 (amended): uploading `[cat.jpg, notes.txt, dog.png]`
with fresh ids accepts the two images, skips the text file, appends, and
keeps the new ids apart from the stored ones. -/
theorem c6_amended_accepted_files_witness :
    ((addPhotosFromFiles envAddOk [fileCat, fileNotes, fileDog] none storeTwo dbEmpty).returned.map
        (fun p => (p.name, p.blobContent, p.splatStatus)) =
      ([fileCat, fileNotes, fileDog].filter (fun f => jsStartsWith f.type "image/")).map
        (fun f => (f.name, f.content, some SplatStatus.pending))) ∧
    ((addPhotosFromFiles envAddOk [fileCat, fileNotes, fileDog] none storeTwo dbEmpty).store.photos =
      storeTwo.photos ++
        (addPhotosFromFiles envAddOk [fileCat, fileNotes, fileDog] none storeTwo dbEmpty).returned) ∧
    (genPhotoId envAddOk 0 ∉ storeTwo.photos.map (fun q => q.id)) ∧
    ((addPhotosFromFiles envAddOk [fileCat, fileNotes, fileDog] none storeTwo dbEmpty).returned.map
        (fun p => p.id)).Nodup := by
  have h := c6_amended_accepted_files envAddOk [fileCat, fileNotes, fileDog] none
    storeTwo dbEmpty (by decide) (by decide)
  refine ⟨h.1, h.2.1, ?_, h.2.2.2.1⟩
  have hmem : (⟨genPhotoId envAddOk 0, "cat.jpg", "CATDATA", "blob:0", 100, "default",
      none, some SplatStatus.pending⟩ : Photo) ∈
      (addPhotosFromFiles envAddOk [fileCat, fileNotes, fileDog] none storeTwo dbEmpty).returned := by
    decide
  simpa using h.2.2.1 _ hmem

/-- Dropping the freshly assigned object URLs from the loaded photos
gives back exactly the records that were loaded. -/
theorem loadPhotosGo_map_recordOf (urlAt : Nat → String) :
    ∀ (i : Nat) (recs : List PhotoRecord),
      (loadPhotosGo urlAt i recs).map recordOf = recs := by
  intro i recs
  induction recs generalizing i with
  | nil => simp [loadPhotosGo]
  | cons r rs ih => simp [loadPhotosGo, toPhoto, recordOf, ih]

/-- **C7.**  On a store with no albums, `initPhotoService` creates and
persists exactly one default album with `photoCount = 0` before
returning, makes it current, and loads into memory exactly the stored
photos scoped to that first album (leaving the photos store untouched). -/
theorem c7_init_creates_default_album (env : InitEnv) (db : DB)
    (h : db.albumsDB = []) :
    (initPhotoService env db).1.albums = [defaultAlbum env.now] ∧
    (defaultAlbum env.now).photoCount = 0 ∧
    (initPhotoService env db).2.albumsDB = [defaultAlbum env.now] ∧
    (initPhotoService env db).1.currentAlbumId = some "default" ∧
    (initPhotoService env db).1.photos.map recordOf =
      db.photosDB.filter (fun r => r.albumId == "default") ∧
    (initPhotoService env db).2.photosDB = db.photosDB := by
  have hput : putAlbum db (defaultAlbum env.now) = ⟨db.photosDB, [defaultAlbum env.now]⟩ := by
    unfold putAlbum
    rw [h]
    simp
  have hid : (defaultAlbum env.now).id = "default" := rfl
  refine ⟨?_, rfl, ?_, ?_, ?_, ?_⟩ <;>
    simp [initPhotoService, h, hput, loadPhotosFromDB, jsTruthy,
      loadPhotosGo_map_recordOf, putAlbum_photosDB, hid]

/-- Witness for C7: initialising over `dbInitW` (no albums, two photos of
which one is in the default album). -/
theorem c7_init_creates_default_album_witness :
    (initPhotoService envInitW dbInitW).1.albums = [defaultAlbum envInitW.now] ∧
    (defaultAlbum envInitW.now).photoCount = 0 ∧
    (initPhotoService envInitW dbInitW).2.albumsDB = [defaultAlbum envInitW.now] ∧
    (initPhotoService envInitW dbInitW).1.currentAlbumId = some "default" ∧
    (initPhotoService envInitW dbInitW).1.photos.map recordOf =
      dbInitW.photosDB.filter (fun r => r.albumId == "default") ∧
    (initPhotoService envInitW dbInitW).2.photosDB = dbInitW.photosDB :=
  c7_init_creates_default_album envInitW dbInitW rfl

end MemorySplat
